import Mathlib

/-!
Verification of the `Sprite` entity of the spaceship-sprite library,
a shallow embedding of `src/lib/src/sprite.ts`.

JavaScript numbers are modelled as `Int` (for externally supplied values
such as dimensions and coordinates, which may be negative) or `Nat`
(for values that are non-negative by construction); the fractional SVG
height arithmetic is modelled over `Rat`.  `Array<Color>` is modelled as
`List Color`.  Thrown errors are modelled with `Except`.
-/

/-- Modelled from the spec: the external `Color` value type
(`src/lib/src/color.ts` is not part of the provided sources).  Per the
spec it is an immutable-by-contract RGBA color value offering independent
copy, four-channel tuple extraction, a CSS color-string representation,
individual byte-channel accessors, and a sentinel "black" value usable
for equality comparison.  Channels are bytes; the alpha component is a
number in [0, 1] modelled as a rational. -/
structure Color where
  red : Nat
  green : Nat
  blue : Nat
  alpha : Rat
deriving DecidableEq, Repr

/-- Modelled from the spec: the pure-black opaque sentinel `Color.BLACK`,
equality-comparable. -/
def Color.BLACK : Color := ⟨0, 0, 0, 1⟩

/-- Modelled from the spec: `copy()` yields an independent color with the
same channel values; with value semantics this is the identity. -/
def Color.copy (c : Color) : Color := c

/-- Modelled from the spec: the red byte-channel accessor.  A JS
`Uint8Array` stores values modulo 256. -/
def Color.redByte (c : Color) : Nat := c.red % 256

/-- Modelled from the spec: the green byte-channel accessor. -/
def Color.greenByte (c : Color) : Nat := c.green % 256

/-- Modelled from the spec: the blue byte-channel accessor. -/
def Color.blueByte (c : Color) : Nat := c.blue % 256

/-- Modelled from the spec: the alpha byte-channel accessor (alpha in
[0, 1] scaled to a byte: the floor of `alpha * 255`, computed on the
rational's numerator and denominator so that it evaluates). -/
def Color.alphaByte (c : Color) : Nat :=
  ((c.alpha.num * 255) / (c.alpha.den : Int)).toNat % 256

/-- Modelled from the spec: the CSS color-string representation used as
the rect fill in SVG rendering. -/
def Color.toRgba (c : Color) : String :=
  "rgba(" ++ toString c.red ++ ", " ++ toString c.green ++ ", " ++
    toString c.blue ++ ", " ++ toString c.alpha ++ ")"

/-- The error taxonomy of the Sprite component.  In the source all three
are thrown as `Error` with a message; the constructors carry the data the
messages report. -/
inductive SpriteError where
  /-- `Validator.positiveInteger` failure, naming the offending field. -/
  | validation (field : String)
  /-- `Invalid array dimensions [dimx, dimy] for array of length len`. -/
  | dimensionMismatch (dimx dimy : Int) (len : Nat)
  /-- `Index out of bounds [x, y] when actual dimension is [dimx, dimy]`. -/
  | indexOutOfBounds (x y : Int) (dimx dimy : Nat)
deriving DecidableEq, Repr

/-- The `SpriteParams` interface of `sprite.ts`.  Optional fields are
`Option`s (`undefined` = `none`). -/
structure SpriteParams where
  dim : Int × Int
  array : Option (List Color) := none
  pallet : Option (List Color) := none
  horizontalSymmetry : Option Bool := none
  colorFill : Option Color := none

/-- The `Sprite` class state.  `_dim` is stored as a pair of `Nat`
because the constructor validates both components to be positive
integers before storing them. -/
structure Sprite where
  _dim : Nat × Nat
  _array : List Color
  _pallet : List Color
  _horizontalSymmetry : Bool
deriving DecidableEq, Repr

/-- `Sprite.trimPallet`: `pallet.filter(value => value !== Color.BLACK)`.
The comparison against the external sentinel is modelled as value
inequality per the spec's "sentinel black value usable for equality
comparison". -/
def Sprite.trimPallet (pallet : List Color) : List Color :=
  pallet.filter (fun value => value ≠ Color.BLACK)

/-- The `Sprite` constructor.  `Validator.positiveInteger` (external,
modelled from the spec) fails with a `ValidationError` naming the field
unless the component is a positive integer; the integrality is implicit
in the `Int` model.  If no array is supplied one is synthesized of length
`dim[0]*dim[1]` filled with copies of the fill color; a supplied array
must have exactly that length. -/
def mkSprite (p : SpriteParams) : Except SpriteError Sprite :=
  if ¬ (0 < p.dim.1) then .error (.validation "dim.x")
  else if ¬ (0 < p.dim.2) then .error (.validation "dim.y")
  else
    let color := p.colorFill.getD ⟨0, 0, 0, 1⟩
    let arr := p.array.getD (List.replicate (p.dim.1 * p.dim.2).toNat color.copy)
    if p.dim.1 * p.dim.2 ≠ (arr.length : Int) then
      .error (.dimensionMismatch p.dim.1 p.dim.2 arr.length)
    else
      .ok { _dim := ((p.dim.1).toNat, (p.dim.2).toNat)
            _array := arr
            _pallet := Sprite.trimPallet (p.pallet.getD [])
            _horizontalSymmetry := p.horizontalSymmetry.getD false }

/-- The `dim` getter (returns a fresh tuple; value semantics). -/
def Sprite.dim (s : Sprite) : Nat × Nat := s._dim

/-- The `array` getter: a snapshot with every color copied. -/
def Sprite.array (s : Sprite) : List Color := s._array.map Color.copy

/-- The `pallet` getter: a snapshot with every color copied. -/
def Sprite.pallet (s : Sprite) : List Color := s._pallet.map Color.copy

/-- The `horizontalSymmetry` getter. -/
def Sprite.horizontalSymmetry (s : Sprite) : Bool := s._horizontalSymmetry

/-- `Sprite.withinBounds`:
`x >= 0 && x < this._dim[0] && y >= 0 && y < this._dim[1]`. -/
def Sprite.withinBounds (s : Sprite) (x y : Int) : Bool :=
  0 ≤ x && x < (s._dim.1 : Int) && 0 ≤ y && y < (s._dim.2 : Int)

/-- The row-major linear index `y * this._dim[0] + x` used by every pixel
accessor (meaningful when `withinBounds`, where it is non-negative). -/
def Sprite.linearIndex (s : Sprite) (x y : Int) : Nat :=
  (y * (s._dim.1 : Int) + x).toNat

/-- `Sprite.pixelAt`: `checkIndex` then
`this._array[y * this._dim[0] + x].copy()`.  The bounds failure carries
the requested coordinate and the actual dimension. -/
def Sprite.pixelAt (s : Sprite) (x y : Int) : Except SpriteError Color :=
  if s.withinBounds x y then
    .ok ((s._array.getD (s.linearIndex x y) Color.BLACK).copy)
  else .error (.indexOutOfBounds x y s._dim.1 s._dim.2)

/-- `Sprite.pixelAtChecked`: the non-throwing read path, returning
`undefined` (`none`) out of bounds. -/
def Sprite.pixelAtChecked (s : Sprite) (x y : Int) : Option Color :=
  if s.withinBounds x y then
    some ((s._array.getD (s.linearIndex x y) Color.BLACK).copy)
  else none

/-- `Sprite.setPixelAt`: `checkIndex` then
`this._array[y * this._dim[0] + x] = color.copy()`. -/
def Sprite.setPixelAt (s : Sprite) (x y : Int) (color : Color) :
    Except SpriteError Sprite :=
  if s.withinBounds x y then
    .ok { s with _array := s._array.set (s.linearIndex x y) color.copy }
  else .error (.indexOutOfBounds x y s._dim.1 s._dim.2)

/-- `Sprite.setPixelAtChecked`: the non-throwing write path, returning a
success flag; the state mutation is modelled by returning the updated
sprite alongside the flag. -/
def Sprite.setPixelAtChecked (s : Sprite) (x y : Int) (color : Color) :
    Bool × Sprite :=
  if s.withinBounds x y then
    (true, { s with _array := s._array.set (s.linearIndex x y) color.copy })
  else (false, s)

/-- `Sprite.bytes`: four bytes per cell — alpha, red, green, green (the
source writes `color.greenByte` into both slot 2 and slot 3 and never
emits blue).  The `Uint8Array` of length `4 * n` written by the indexed
loop is modelled as a flat map. -/
def Sprite.bytes (s : Sprite) : List Nat :=
  s._array.flatMap (fun color =>
    [color.alphaByte, color.redByte, color.greenByte, color.greenByte])

/-- The color read by `svgExact`'s loop body: `this.pixelAt(x, y)` at the
in-bounds loop coordinates (the thrown-error path is unreachable there;
`pixelAt_in_bounds_cellAt` relates the two). -/
def Sprite.cellAt (s : Sprite) (x y : Nat) : Color :=
  (s._array.getD (y * s._dim.1 + x) Color.BLACK).copy

/-- One `<rect .../>` fragment of `svgExact`'s output. -/
def rectString (x y : Nat) (color : Color) : String :=
  "<rect width=\"1\" height=\"1\" x=\"" ++ toString x ++ "\" y=\"" ++
    toString y ++ "\" style=\"fill:" ++ color.toRgba ++ ";\" />"

/-- The opening `<svg ...>` tag of `svgExact`'s output, carrying the
requested width/height with the unit and a `viewBox` in grid-cell
units. -/
def svgHeader (s : Sprite) (width height : Rat) (unit parameters : String) :
    String :=
  "<svg " ++ parameters ++ " width=\"" ++ toString width ++ unit ++
    "\" height=\"" ++ toString height ++ unit ++ "\" " ++
    ("viewBox=\"0, 0, " ++ toString s._dim.1 ++ ", " ++
      toString s._dim.2 ++ "\">")

/-- `Sprite.svgExact`: the canonical renderer.  The nested
string-accumulating `for` loops (outer over `x`, inner over `y`) are
modelled as nested folds over `List.range`. -/
def Sprite.svgExact (s : Sprite) (width height : Rat)
    (unit parameters : String) : String :=
  ((List.range s._dim.1).foldl
    (fun result x =>
      (List.range s._dim.2).foldl
        (fun result y => result ++ rectString x y (s.cellAt x y)) result)
    (svgHeader s width height unit parameters)) ++ "</svg>"

/-- The rounding arithmetic `size + dim - (size % dim)` shared by
`svgWidth`, `svgHeight` and `svg`.  JavaScript's `%` on integers is the
truncated remainder, `Int.tmod`. -/
def svgRoundUp (size dim : Int) : Int := size + dim - Int.tmod size dim

/-- The derived height of `svgWidth`:
`(this._dim[1] / this._dim[0]) * w` over JS numbers, modelled over
`Rat`. -/
def Sprite.svgWidthHeight (s : Sprite) (width : Int) : Rat :=
  ((s._dim.2 : Rat) / (s._dim.1 : Rat)) * ((svgRoundUp width s._dim.1 : Int) : Rat)

/-- `Sprite.svgWidth`: rounds the requested width with `svgRoundUp`,
derives the height from the aspect ratio, and delegates to
`svgExact`. -/
def Sprite.svgWidth (s : Sprite) (width : Int) (unit parameters : String) :
    String :=
  s.svgExact ((svgRoundUp width s._dim.1 : Int) : Rat) (s.svgWidthHeight width)
    unit parameters

/-- The cell coordinates `svgExact` visits, in traversal order: outer
loop over `x`, inner loop over `y`. -/
def svgCells (w h : Nat) : List (Nat × Nat) :=
  (List.range w).flatMap (fun x => (List.range h).map (fun y => (x, y)))

/-- Concatenation of a list of strings, for stating the shape of
`svgExact`'s output. -/
def strConcat (l : List String) : String := l.foldl (fun a b => a ++ b) ""

/-- A concrete opaque red, for the concrete scenarios. -/
def RED : Color := ⟨255, 0, 0, 1⟩

/-- A concrete opaque green. -/
def GREEN : Color := ⟨0, 255, 0, 1⟩

/-- A concrete opaque blue. -/
def BLUE : Color := ⟨0, 0, 255, 1⟩

/-- A concrete opaque white. -/
def WHITE : Color := ⟨255, 255, 255, 1⟩

/-! ### Helper lemmas about bounds and indexing -/

/-- `withinBounds` as a proposition. -/
theorem withinBounds_iff (s : Sprite) (x y : Int) :
    s.withinBounds x y = true ↔
      0 ≤ x ∧ x < (s._dim.1 : Int) ∧ 0 ≤ y ∧ y < (s._dim.2 : Int) := by
  simp [Sprite.withinBounds, and_assoc]

/-- An in-bounds coordinate's linear index lies inside a grid of length
`width * height`. -/
theorem linearIndex_lt (s : Sprite) (x y : Int)
    (h : s.withinBounds x y = true) :
    s.linearIndex x y < s._dim.1 * s._dim.2 := by
  rw [withinBounds_iff] at h
  obtain ⟨hx0, hxw, hy0, hyh⟩ := h
  have h3 : (y + 1) * (s._dim.1 : Int) ≤ (s._dim.2 : Int) * (s._dim.1 : Int) :=
    mul_le_mul_of_nonneg_right (by omega) (by exact_mod_cast Nat.zero_le _)
  have h1 : y * (s._dim.1 : Int) + x < (s._dim.1 : Int) * (s._dim.2 : Int) := by
    nlinarith
  have h2 : ((s._dim.1 * s._dim.2 : Nat) : Int) =
      (s._dim.1 : Int) * (s._dim.2 : Int) := by push_cast; ring
  have hnn : 0 ≤ y * (s._dim.1 : Int) + x :=
    add_nonneg (mul_nonneg hy0 (by exact_mod_cast Nat.zero_le _)) hx0
  unfold Sprite.linearIndex
  omega

/-- The row-major linear index is injective on in-bounds coordinates. -/
theorem linearIndex_inj (s : Sprite) (x y x' y' : Int)
    (h : s.withinBounds x y = true) (h' : s.withinBounds x' y' = true)
    (he : s.linearIndex x' y' = s.linearIndex x y) : x' = x ∧ y' = y := by
  rw [withinBounds_iff] at h h'
  have hw : (0 : Int) < (s._dim.1 : Int) := by omega
  have hnn : 0 ≤ y * (s._dim.1 : Int) + x :=
    add_nonneg (mul_nonneg h.2.2.1 (le_of_lt hw)) h.1
  have hnn' : 0 ≤ y' * (s._dim.1 : Int) + x' :=
    add_nonneg (mul_nonneg h'.2.2.1 (le_of_lt hw)) h'.1
  have heInt : y' * (s._dim.1 : Int) + x' = y * (s._dim.1 : Int) + x := by
    unfold Sprite.linearIndex at he
    omega
  have hmod : ∀ a b : Int, 0 ≤ a → a < (s._dim.1 : Int) →
      (b * (s._dim.1 : Int) + a) % (s._dim.1 : Int) = a := by
    intro a b ha hb
    rw [add_comm, Int.add_mul_emod_self]
    exact Int.emod_eq_of_lt ha hb
  have hx : x' = x := by
    have e1 := hmod x y h.1 h.2.1
    have e2 := hmod x' y' h'.1 h'.2.1
    rw [heInt] at e2
    omega
  refine ⟨hx, ?_⟩
  have : y' * (s._dim.1 : Int) = y * (s._dim.1 : Int) := by omega
  exact mul_right_cancel₀ (ne_of_gt hw) this

/-- Copying every color of a list is the identity in the value model. -/
theorem map_copy (l : List Color) : l.map Color.copy = l := by
  induction l with
  | nil => rfl
  | cons a t ih => simp [Color.copy, ih]

/-- The stored fields of a successfully constructed sprite. -/
theorem mkSprite_ok_fields (p : SpriteParams) (s : Sprite)
    (h : mkSprite p = .ok s) :
    s._pallet = Sprite.trimPallet (p.pallet.getD []) ∧
    s._dim = ((p.dim.1).toNat, (p.dim.2).toNat) ∧
    s._horizontalSymmetry = p.horizontalSymmetry.getD false := by
  simp only [mkSprite] at h
  split at h
  · exact absurd h (by simp)
  split at h
  · exact absurd h (by simp)
  split at h
  · exact absurd h (by simp)
  · simp only [Except.ok.injEq] at h
    subst h
    exact ⟨rfl, rfl, rfl⟩

/-! ### Claim theorems -/

/-- C1: For every Sprite constructed with any input palette, the stored
palette (as returned by the `pallet` accessor) contains no opaque
pure-black entry; in particular, constructing with palette
`[BLACK, RED]` yields a stored palette of exactly `[RED]`. -/
theorem pallet_never_contains_black :
    (∀ (p : SpriteParams) (s : Sprite), mkSprite p = .ok s →
      ∀ c ∈ s.pallet, c ≠ Color.BLACK) ∧
    (∃ s : Sprite,
      mkSprite { dim := (1, 1), pallet := some [Color.BLACK, RED] } = .ok s ∧
      s.pallet = [RED]) := by
  constructor
  · intro p s h c hc
    have hp := (mkSprite_ok_fields p s h).1
    rw [Sprite.pallet, map_copy, hp] at hc
    unfold Sprite.trimPallet at hc
    simpa using (List.mem_filter.mp hc).2
  · exact ⟨⟨(1, 1), [⟨0, 0, 0, 1⟩], [RED], false⟩, by rfl, by decide⟩

/-- Witness for C1 at the concrete palette `[BLACK, RED]`. -/
theorem pallet_never_contains_black_witness : RED ≠ Color.BLACK :=
  pallet_never_contains_black.1
    { dim := (1, 1), pallet := some [Color.BLACK, RED] }
    ⟨(1, 1), [⟨0, 0, 0, 1⟩], [RED], false⟩ (by rfl) RED (by decide)

/-- C8: constructing with positive dimensions and a supplied grid whose
length differs from `w * h` fails with the dimension-mismatch error
reporting the expected dimensions and actual length; no sprite is
produced. -/
theorem mismatched_grid_fails (w h : Int) (arr : List Color)
    (pal : Option (List Color)) (hsym : Option Bool) (cf : Option Color)
    (hw : 0 < w) (hh : 0 < h) (hlen : w * h ≠ (arr.length : Int)) :
    mkSprite { dim := (w, h), array := some arr, pallet := pal,
               horizontalSymmetry := hsym, colorFill := cf } =
      .error (.dimensionMismatch w h arr.length) := by
  simp [mkSprite, hw, hh, hlen]

/-- Witness for C8: a 2×2 dimension with a length-1 grid. -/
theorem mismatched_grid_fails_witness :
    mkSprite { dim := (2, 2), array := some [RED], pallet := none,
               horizontalSymmetry := none, colorFill := none } =
      .error (.dimensionMismatch 2 2 1) :=
  mismatched_grid_fails 2 2 [RED] none none none (by decide) (by decide)
    (by decide)

/-- C2: a default-filled sprite of positive dimensions reads back the
fill color at every in-bounds coordinate. -/
theorem default_fill_pixelAt (w h : Int) (c : Color) (x y : Int)
    (hw : 0 < w) (hh : 0 < h)
    (hx0 : 0 ≤ x) (hxw : x < w) (hy0 : 0 ≤ y) (hyh : y < h) :
    ∃ s : Sprite,
      mkSprite { dim := (w, h), colorFill := some c } = .ok s ∧
      s.pixelAt x y = .ok c := by
  have hw1 : ((w.toNat : Int)) = w := Int.toNat_of_nonneg hw.le
  have hh1 : ((h.toNat : Int)) = h := Int.toNat_of_nonneg hh.le
  have hmul : (w * h).toNat = w.toNat * h.toNat := by
    have h3 : w * h = ((w.toNat * h.toNat : Nat) : Int) := by
      push_cast
      rw [hw1, hh1]
    omega
  refine ⟨⟨(w.toNat, h.toNat), List.replicate (w * h).toNat c, [], false⟩,
    ?_, ?_⟩
  · have hc : ((w * h).toNat : Int) = w * h :=
      Int.toNat_of_nonneg (by positivity)
    simp [mkSprite, hw, hh, Sprite.trimPallet, Color.copy, hc]
  · have hwb : (Sprite.mk (w.toNat, h.toNat) (List.replicate (w * h).toNat c)
        [] false).withinBounds x y = true := by
      rw [withinBounds_iff]
      dsimp only
      omega
    have hlt := linearIndex_lt _ x y hwb
    dsimp only at hlt
    rw [← hmul] at hlt
    simp only [Sprite.pixelAt, hwb, if_true]
    rw [List.getD_eq_getElem _ _ (by simpa using hlt)]
    simp [Color.copy]

/-- Witness for C2 at a 3×2 sprite filled with `RED`, probed at (1, 1). -/
theorem default_fill_pixelAt_witness :
    ∃ s : Sprite,
      mkSprite { dim := (3, 2), colorFill := some RED } = .ok s ∧
      s.pixelAt 1 1 = .ok RED :=
  default_fill_pixelAt 3 2 RED 1 1 (by decide) (by decide) (by decide)
    (by decide) (by decide) (by decide)

/-- C3: `pixelAt` reads the grid element at row-major linear index
`y * width + x`; concretely, on a 2×2 sprite with grid
`[RED, GREEN, BLUE, WHITE]` the four corners read back in row-major
order. -/
theorem pixelAt_row_major :
    (∀ (s : Sprite) (x y : Int), s.withinBounds x y = true →
      s.pixelAt x y =
        .ok ((s._array.getD (y * (s._dim.1 : Int) + x).toNat
          Color.BLACK).copy)) ∧
    (∃ s : Sprite,
      mkSprite { dim := (2, 2), array := some [RED, GREEN, BLUE, WHITE] } =
        .ok s ∧
      s.pixelAt 0 0 = .ok RED ∧ s.pixelAt 1 0 = .ok GREEN ∧
      s.pixelAt 0 1 = .ok BLUE ∧ s.pixelAt 1 1 = .ok WHITE) := by
  constructor
  · intro s x y h
    simp [Sprite.pixelAt, h, Sprite.linearIndex]
  · exact ⟨⟨(2, 2), [RED, GREEN, BLUE, WHITE], [], false⟩,
      by rfl, by rfl, by rfl, by rfl, by rfl⟩

/-- Witness for C3: the general row-major lemma applied at (1, 0) of the
concrete 2×2 sprite indeed yields the element at linear index 1. -/
theorem pixelAt_row_major_witness :
    (Sprite.mk (2, 2) [RED, GREEN, BLUE, WHITE] [] false).pixelAt 1 0 =
      .ok GREEN :=
  pixelAt_row_major.1 ⟨(2, 2), [RED, GREEN, BLUE, WHITE], [], false⟩ 1 0
    (by rfl)

/-- C4: at any out-of-bounds coordinate, `pixelAt` and `setPixelAt` fail
with the index-out-of-bounds error while `pixelAtChecked` returns `none`
and `setPixelAtChecked` returns `false` leaving the sprite unchanged. -/
theorem out_of_bounds_accessors (s : Sprite) (x y : Int) (c : Color)
    (h : x < 0 ∨ (s._dim.1 : Int) ≤ x ∨ y < 0 ∨ (s._dim.2 : Int) ≤ y) :
    s.pixelAt x y = .error (.indexOutOfBounds x y s._dim.1 s._dim.2) ∧
    s.setPixelAt x y c = .error (.indexOutOfBounds x y s._dim.1 s._dim.2) ∧
    s.pixelAtChecked x y = none ∧
    s.setPixelAtChecked x y c = (false, s) := by
  have hb' : ¬ (s.withinBounds x y = true) := by
    rw [withinBounds_iff]
    omega
  have hb : s.withinBounds x y = false := by simpa using hb'
  refine ⟨?_, ?_, ?_, ?_⟩ <;>
    simp [Sprite.pixelAt, Sprite.setPixelAt, Sprite.pixelAtChecked,
      Sprite.setPixelAtChecked, hb]

/-- Witness for C4 at the coordinate (5, 0) of a 1×1 sprite. -/
theorem out_of_bounds_accessors_witness :
    (Sprite.mk (1, 1) [RED] [] false).pixelAt 5 0 =
      .error (.indexOutOfBounds 5 0 1 1) ∧
    (Sprite.mk (1, 1) [RED] [] false).setPixelAt 5 0 GREEN =
      .error (.indexOutOfBounds 5 0 1 1) ∧
    (Sprite.mk (1, 1) [RED] [] false).pixelAtChecked 5 0 = none ∧
    (Sprite.mk (1, 1) [RED] [] false).setPixelAtChecked 5 0 GREEN =
      (false, Sprite.mk (1, 1) [RED] [] false) :=
  out_of_bounds_accessors ⟨(1, 1), [RED], [], false⟩ 5 0 GREEN
    (Or.inr (Or.inl (by decide)))

/-- `getD` after `set` at a different index is unchanged. -/
theorem getD_set_ne (l : List Color) (i j : Nat) (a d : Color)
    (h : i ≠ j) : (l.set i a).getD j d = l.getD j d := by
  simp [List.getElem?_set_ne h]

/-- C9: after an in-bounds `setPixelAt`, reading the written coordinate
yields the written color, every other in-bounds coordinate reads the
same value as before, and the dimension, palette and symmetry flag are
unchanged. -/
theorem setPixelAt_frame (s s' : Sprite) (x y : Int) (c : Color)
    (hlen : s._array.length = s._dim.1 * s._dim.2)
    (hset : s.setPixelAt x y c = .ok s') :
    s'.pixelAt x y = .ok c ∧
    (∀ x' y' : Int, s.withinBounds x' y' = true → ¬(x' = x ∧ y' = y) →
      s'.pixelAt x' y' = s.pixelAt x' y') ∧
    s'.dim = s.dim ∧ s'.pallet = s.pallet ∧
    s'.horizontalSymmetry = s.horizontalSymmetry := by
  have hwb : s.withinBounds x y = true := by
    by_contra hfb
    have hf : s.withinBounds x y = false := by simpa using hfb
    simp [Sprite.setPixelAt, hf] at hset
  have hs' : s' = { s with _array := s._array.set (s.linearIndex x y) c.copy } := by
    simp only [Sprite.setPixelAt, hwb, if_true, Except.ok.injEq] at hset
    exact hset.symm
  subst hs'
  refine ⟨?_, ?_, rfl, rfl, rfl⟩
  · have hwb2 : ({ s with _array := s._array.set (s.linearIndex x y) c.copy }
        : Sprite).withinBounds x y = true := hwb
    have hidx : s.linearIndex x y < s._array.length := by
      rw [hlen]
      exact linearIndex_lt s x y hwb
    simp only [Sprite.pixelAt, hwb2, if_true]
    have hidx2 : s.linearIndex x y < (s._array.set (s.linearIndex x y) c.copy).length := by
      simpa using hidx
    rw [show ({ s with _array := s._array.set (s.linearIndex x y) c.copy }
        : Sprite).linearIndex x y = s.linearIndex x y from rfl]
    rw [List.getD_eq_getElem _ _ hidx2]
    simp [Color.copy]
  · intro x' y' hwb2 hne
    have hwb2' : ({ s with _array := s._array.set (s.linearIndex x y) c.copy }
        : Sprite).withinBounds x' y' = true := hwb2
    have hne2 : s.linearIndex x y ≠ s.linearIndex x' y' := by
      intro he
      exact hne (linearIndex_inj s x y x' y' hwb hwb2 he.symm)
    simp only [Sprite.pixelAt, hwb2', hwb2, if_true]
    rw [show ({ s with _array := s._array.set (s.linearIndex x y) c.copy }
        : Sprite).linearIndex x' y' = s.linearIndex x' y' from rfl]
    rw [getD_set_ne _ _ _ _ _ hne2]

/-- Witness for C9: writing `WHITE` at (0, 1) of a concrete 2×2 sprite
updates that cell and leaves (1, 1) unchanged. -/
theorem setPixelAt_frame_witness :
    (Sprite.mk (2, 2) [RED, GREEN, WHITE, BLUE] [] false).pixelAt 0 1 =
      .ok WHITE ∧
    (Sprite.mk (2, 2) [RED, GREEN, WHITE, BLUE] [] false).pixelAt 1 1 =
      (Sprite.mk (2, 2) [RED, GREEN, BLUE, BLUE] [] false).pixelAt 1 1 := by
  have h := setPixelAt_frame ⟨(2, 2), [RED, GREEN, BLUE, BLUE], [], false⟩
    ⟨(2, 2), [RED, GREEN, WHITE, BLUE], [], false⟩ 0 1 WHITE (by decide)
    (by rfl)
  exact ⟨h.1, h.2.1 1 1 (by decide) (by decide)⟩

/-- C10: `setPixelAtChecked` succeeds exactly on in-bounds coordinates,
and whenever it reports failure the sprite is left exactly as it was. -/
theorem setPixelAtChecked_success_iff (s : Sprite) (x y : Int) (c : Color) :
    ((s.setPixelAtChecked x y c).1 = true ↔
      0 ≤ x ∧ x < (s._dim.1 : Int) ∧ 0 ≤ y ∧ y < (s._dim.2 : Int)) ∧
    ((s.setPixelAtChecked x y c).1 = false →
      (s.setPixelAtChecked x y c).2 = s) := by
  refine ⟨⟨?_, ?_⟩, ?_⟩
  · intro h1
    apply (withinBounds_iff s x y).mp
    by_contra hfb
    have hf : s.withinBounds x y = false := by simpa using hfb
    simp [Sprite.setPixelAtChecked, hf] at h1
  · intro hprops
    have hwb := (withinBounds_iff s x y).mpr hprops
    simp [Sprite.setPixelAtChecked, hwb]
  · intro h1
    cases hwb : s.withinBounds x y with
    | true => simp [Sprite.setPixelAtChecked, hwb] at h1
    | false => simp [Sprite.setPixelAtChecked, hwb]

/-- Witness for C10: a failing write at (-1, 0) leaves the sprite
untouched, and a write at (0, 0) succeeds. -/
theorem setPixelAtChecked_success_iff_witness :
    ((Sprite.mk (1, 1) [RED] [] false).setPixelAtChecked (-1) 0 GREEN).2 =
      Sprite.mk (1, 1) [RED] [] false ∧
    ((Sprite.mk (1, 1) [RED] [] false).setPixelAtChecked 0 0 GREEN).1 =
      true :=
  ⟨(setPixelAtChecked_success_iff ⟨(1, 1), [RED], [], false⟩ (-1) 0 GREEN).2
      (by rfl),
   (setPixelAtChecked_success_iff ⟨(1, 1), [RED], [], false⟩ 0 0 GREEN).1.mpr
      (by decide)⟩

/-- The per-color quadruple emitted by `bytes`. -/
def byteQuad (c : Color) : List Nat :=
  [c.alphaByte, c.redByte, c.greenByte, c.greenByte]

/-- `bytes` emits four bytes per cell. -/
theorem flatMap_byteQuad_length (l : List Color) :
    (l.flatMap byteQuad).length = 4 * l.length := by
  induction l with
  | nil => rfl
  | cons a t ih =>
    rw [List.flatMap_cons, List.length_append, ih]
    simp [byteQuad]
    ring

/-- The `i`-th four-byte chunk of `bytes` is the quadruple of the `i`-th
color. -/
theorem flatMap_byteQuad_chunk (l : List Color) :
    ∀ i : Nat, i < l.length →
      (((l.flatMap byteQuad).drop (4 * i)).take 4) =
        byteQuad (l.getD i Color.BLACK) := by
  induction l with
  | nil => intro i hi; simp at hi
  | cons a t ih =>
    intro i hi
    cases i with
    | zero => simp [byteQuad]
    | succ n =>
      rw [List.flatMap_cons]
      rw [show 4 * (n + 1) = (byteQuad a).length + 4 * n by simp [byteQuad]; ring]
      rw [List.drop_append]
      rw [List.getD_cons_succ]
      exact ih n (by simpa using hi)

/-- C6: `bytes()` returns exactly four bytes per grid cell, in storage
order, each cell's chunk being [alpha, red, green, green] — the fourth
byte duplicates green and blue is never emitted. -/
theorem bytes_alpha_red_green_green (s : Sprite) :
    s.bytes.length = 4 * s._array.length ∧
    ∀ i : Nat, i < s._array.length →
      ((s.bytes.drop (4 * i)).take 4) =
        [(s._array.getD i Color.BLACK).alphaByte,
         (s._array.getD i Color.BLACK).redByte,
         (s._array.getD i Color.BLACK).greenByte,
         (s._array.getD i Color.BLACK).greenByte] := by
  have hb : s.bytes = s._array.flatMap byteQuad := rfl
  rw [hb]
  exact ⟨flatMap_byteQuad_length s._array, flatMap_byteQuad_chunk s._array⟩

/-- Witness for C6 on a 3×1 default-black sprite: 12 bytes, first chunk
[255, 0, 0, 0]. -/
theorem bytes_alpha_red_green_green_witness :
    (Sprite.mk (3, 1) (List.replicate 3 ⟨0, 0, 0, 1⟩) [] false).bytes.length
      = 12 ∧
    (((Sprite.mk (3, 1) (List.replicate 3 ⟨0, 0, 0, 1⟩) [] false).bytes.drop
      (4 * 1)).take 4) = [255, 0, 0, 0] := by
  have h := bytes_alpha_red_green_green
    ⟨(3, 1), List.replicate 3 ⟨0, 0, 0, 1⟩, [], false⟩
  exact ⟨h.1, (h.2 1 (by decide)).trans (by decide)⟩

/-- The rounded size `size + d - size % d` is, when `size % d ≠ 0`, the
least multiple of `d` at least `size`; when `size % d = 0` it equals
`size + d`. -/
theorem roundUp_spec (size d : Int) (hd : 0 < d) (hs : 0 ≤ size) :
    (size % d ≠ 0 →
      (d ∣ svgRoundUp size d ∧ size ≤ svgRoundUp size d ∧
       ∀ m : Int, d ∣ m → size ≤ m → svgRoundUp size d ≤ m)) ∧
    (size % d = 0 → svgRoundUp size d = size + d) := by
  unfold svgRoundUp
  rw [Int.tmod_eq_emod hs hd.le]
  have h0 : 0 ≤ size % d := Int.emod_nonneg size (ne_of_gt hd)
  have h1 : size % d < d := Int.emod_lt_of_pos size hd
  have heq := Int.ediv_add_emod size d
  constructor
  · intro hne
    refine ⟨⟨size / d + 1, ?_⟩, by omega, ?_⟩
    · have hexp : d * (size / d + 1) = d * (size / d) + d := by ring
      omega
    · intro m hm hsm
      obtain ⟨k, rfl⟩ := hm
      have hq : size / d < k := by
        by_contra hcon
        push_neg at hcon
        have hmono : d * k ≤ d * (size / d) :=
          mul_le_mul_of_nonneg_left hcon hd.le
        omega
      have hstep : d * (size / d + 1) ≤ d * k :=
        mul_le_mul_of_nonneg_left (by omega) hd.le
      have hexp : d * (size / d + 1) = d * (size / d) + d := by ring
      omega
  · intro hz
    omega

/-- C5: `svgWidth` rounds with `width + dimX - (width mod dimX)`: for
`width mod dimX ≠ 0` this is the least multiple of the grid width that
is ≥ width, for exact multiples it over-rounds to `width + dimX`, and
the derived height is `(dimY / dimX)` times the rounded width. -/
theorem svgWidth_rounding (s : Sprite) (width : Int) (u p : String)
    (hd : 0 < s._dim.1) (hw : 0 ≤ width) :
    (Int.tmod width s._dim.1 ≠ 0 →
      (((s._dim.1 : Int)) ∣ svgRoundUp width s._dim.1 ∧
       width ≤ svgRoundUp width s._dim.1 ∧
       ∀ m : Int, ((s._dim.1 : Int)) ∣ m → width ≤ m →
         svgRoundUp width s._dim.1 ≤ m)) ∧
    (Int.tmod width s._dim.1 = 0 →
      svgRoundUp width s._dim.1 = width + s._dim.1) ∧
    s.svgWidthHeight width =
      ((s._dim.2 : Rat) / (s._dim.1 : Rat)) *
        ((svgRoundUp width s._dim.1 : Int) : Rat) ∧
    s.svgWidth width u p =
      s.svgExact ((svgRoundUp width s._dim.1 : Int) : Rat)
        (s.svgWidthHeight width) u p := by
  have hd' : (0 : Int) < (s._dim.1 : Int) := by exact_mod_cast hd
  have htm : Int.tmod width (s._dim.1 : Int) = width % (s._dim.1 : Int) :=
    Int.tmod_eq_emod hw hd'.le
  have h := roundUp_spec width (s._dim.1 : Int) hd' hw
  rw [htm]
  exact ⟨h.1, h.2, rfl, rfl⟩

/-- Witness for C5 on a 2×3 sprite: width 5 rounds to the least multiple
6 of 2, and the exact multiple 4 over-rounds to 6. -/
theorem svgWidth_rounding_witness :
    ((2 : Int)) ∣ svgRoundUp 5 2 ∧ svgRoundUp 4 2 = 6 := by
  have hs5 := svgWidth_rounding
    ⟨(2, 3), List.replicate 6 ⟨0, 0, 0, 1⟩, [], false⟩ 5 "px" ""
    (by decide) (by decide)
  have hs4 := svgWidth_rounding
    ⟨(2, 3), List.replicate 6 ⟨0, 0, 0, 1⟩, [], false⟩ 4 "px" ""
    (by decide) (by decide)
  exact ⟨(hs5.1 (by decide)).1, (hs4.2.1 (by decide)).trans (by decide)⟩

/-- Folding string concatenation from any initial accumulator prepends
the accumulator to the concatenation of the list. -/
theorem strFoldl_eq (l : List String) :
    ∀ init : String, l.foldl (fun a b => a ++ b) init = init ++ strConcat l := by
  induction l with
  | nil =>
    intro init
    simp [strConcat]
  | cons a t ih =>
    intro init
    have h1 : strConcat (a :: t) = a ++ strConcat t := by
      unfold strConcat
      rw [List.foldl_cons, ih ("" ++ a)]
      simp [strConcat]
    rw [List.foldl_cons, ih (init ++ a), h1, String.append_assoc]

/-- The string-accumulating fold of the source's render loops, as the
initial string followed by the concatenated fragments. -/
theorem foldl_append_map {α : Type} (l : List α) (f : α → String)
    (init : String) :
    l.foldl (fun acc a => acc ++ f a) init = init ++ strConcat (l.map f) := by
  rw [← List.foldl_map f (fun a b => a ++ b) l init, strFoldl_eq]

/-- `strConcat` distributes over list append. -/
theorem strConcat_append (l₁ l₂ : List String) :
    strConcat (l₁ ++ l₂) = strConcat l₁ ++ strConcat l₂ := by
  induction l₁ with
  | nil => simp [strConcat]
  | cons a t ih =>
    have h1 : ∀ u : List String, strConcat (a :: u) = a ++ strConcat u := by
      intro u
      unfold strConcat
      rw [List.foldl_cons, strFoldl_eq]
      simp [strConcat]
    rw [List.cons_append, h1, h1, ih, String.append_assoc]

/-- Concatenating over a flatMap equals concatenating the per-block
concatenations. -/
theorem strConcat_flatMap {α : Type} (l : List α) (F : α → List String) :
    strConcat (l.flatMap F) = strConcat (l.map (fun a => strConcat (F a))) := by
  induction l with
  | nil => rfl
  | cons a t ih =>
    rw [List.flatMap_cons, strConcat_append, List.map_cons, ih]
    have h1 : ∀ (u : String) (v : List String), strConcat (u :: v) = u ++ strConcat v := by
      intro u v
      unfold strConcat
      rw [List.foldl_cons, strFoldl_eq]
      simp [strConcat]
    rw [h1]

/-- The output of `svgExact` decomposed into header, rect fragments in
traversal order, and footer. -/
theorem svgExact_eq (s : Sprite) (W H : Rat) (u p : String) :
    s.svgExact W H u p =
      svgHeader s W H u p ++
        strConcat ((svgCells s._dim.1 s._dim.2).map
          (fun q => rectString q.1 q.2 (s.cellAt q.1 q.2))) ++ "</svg>" := by
  unfold Sprite.svgExact
  have hinner : ∀ (result : String) (x : Nat),
      (List.range s._dim.2).foldl
        (fun r y => r ++ rectString x y (s.cellAt x y)) result =
      result ++ strConcat ((List.range s._dim.2).map
        (fun y => rectString x y (s.cellAt x y))) := by
    intro result x
    exact foldl_append_map _ _ _
  rw [List.foldl_ext _ (fun result x => result ++
      strConcat ((List.range s._dim.2).map
        (fun y => rectString x y (s.cellAt x y))))
      (svgHeader s W H u p) (fun acc x _ => hinner acc x)]
  rw [foldl_append_map]
  congr 2
  unfold svgCells
  rw [List.map_flatMap, strConcat_flatMap]
  apply congrArg
  apply List.map_congr_left
  intro x hx
  rw [List.map_map]
  rfl

/-- `svgCells` enumerates, in order, the pair `(k / h, k % h)` for each
`k < w * h`: all `y` for `x = 0`, then all `y` for `x = 1`, and so on. -/
theorem svgCells_eq (w h : Nat) :
    svgCells w h = (List.range (w * h)).map (fun k => (k / h, k % h)) := by
  induction w with
  | zero => simp [svgCells]
  | succ w ih =>
    by_cases hh : h = 0
    · subst hh
      simp [svgCells]
    · have hpos : 0 < h := Nat.pos_of_ne_zero hh
      unfold svgCells
      rw [List.range_succ, List.flatMap_append]
      unfold svgCells at ih
      rw [ih]
      rw [Nat.succ_mul, List.range_add, List.map_append]
      congr 1
      rw [List.flatMap_cons, List.flatMap_nil, List.append_nil, List.map_map]
      apply List.map_congr_left
      intro j hj
      have hjh : j < h := List.mem_range.mp hj
      simp only [Function.comp]
      have hdiv : (j + w * h) / h = w := by
        rw [Nat.add_mul_div_right _ _ hpos, Nat.div_eq_of_lt hjh, Nat.zero_add]
      have hmod : (j + w * h) % h = j := by
        rw [Nat.add_mul_mod_self_right, Nat.mod_eq_of_lt hjh]
      rw [show w * h + j = j + w * h from Nat.add_comm _ _, hdiv, hmod]

/-- C7: `svgExact` produces the header (whose viewBox is
`"0, 0, w, h"` in grid units), exactly `w * h` rect fragments in
traversal order — outer loop over x, inner loop over y — and the closing
tag. -/
theorem svgExact_structure (s : Sprite) (W H : Rat) (u p : String) :
    s.svgExact W H u p =
      svgHeader s W H u p ++
        strConcat ((svgCells s._dim.1 s._dim.2).map
          (fun q => rectString q.1 q.2 (s.cellAt q.1 q.2))) ++ "</svg>" ∧
    (svgCells s._dim.1 s._dim.2).length = s._dim.1 * s._dim.2 ∧
    svgCells s._dim.1 s._dim.2 =
      (List.range (s._dim.1 * s._dim.2)).map
        (fun k => (k / s._dim.2, k % s._dim.2)) ∧
    (∃ a b : String, s.svgExact W H u p =
      a ++ ("viewBox=\"0, 0, " ++ toString s._dim.1 ++ ", " ++
        toString s._dim.2 ++ "\">") ++ b) := by
  refine ⟨svgExact_eq s W H u p, ?_, svgCells_eq _ _, ?_⟩
  · rw [svgCells_eq]
    simp
  · refine ⟨"<svg " ++ p ++ " width=\"" ++ toString W ++ u ++
      "\" height=\"" ++ toString H ++ u ++ "\" ",
      strConcat ((svgCells s._dim.1 s._dim.2).map
        (fun q => rectString q.1 q.2 (s.cellAt q.1 q.2))) ++ "</svg>", ?_⟩
    rw [svgExact_eq]
    unfold svgHeader
    simp [String.append_assoc]
